import Mathlib

/-!
The theme chooser panel of sddm-kcm.

A shallow embedding of `themeconfig.cpp` (the selection controller) and of
`themesdelegate.cpp` (the list item renderer), with the properties of the
controller's load / select / save flow and of the renderer's caption markup.

Toolkit objects are embedded by the part of their state the code reads or
writes: a list view is its model and its current index, a declarative view is
its source and its context properties, a painter is the list of drawing
commands it received.
-/

namespace SddmKcm

/-! ## The list model -/

/-- Modelled from the spec: one row of the theme list with the eleven fields the
list model exposes (`themesmodel.h` is not part of the sources). -/
structure ThemeEntry where
  id : String
  title : String
  author : String
  website : String
  description : String
  license : String
  email : String
  copyright : String
  version : String
  path : String
  preview : String
deriving DecidableEq, Repr

/-- Modelled from the spec: the role keys of `ThemesModel` (declared in
`themesmodel.h`), with `DisplayRole` the toolkit's default role. -/
inductive Role where
  | DisplayRole | IdRole | PathRole | PreviewRole | AuthorRole | DescriptionRole
  | LicenseRole | EmailRole | WebsiteRole | CopyrightRole | VersionRole
deriving DecidableEq, Repr

/-- A `QVariant` as this program uses it: invalid, or holding a string. -/
inductive QVariant where
  | invalid
  | string (s : String)
deriving DecidableEq, Repr

/-- The function `QVariant::toString`: the held string, empty for an invalid variant. -/
def QVariant.toString : QVariant → String
  | QVariant.invalid => ""
  | QVariant.string s => s

/-- A `QModelIndex` of a one-column list model: invalid, or a row. -/
inductive QModelIndex where
  | invalid
  | valid (row : Nat)
deriving DecidableEq, Repr

/-- The function `QModelIndex::isValid`. -/
def QModelIndex.isValid : QModelIndex → Bool
  | QModelIndex.invalid => false
  | QModelIndex.valid _ => true

/-- Modelled from the spec: the list model, a sequence of rows with per-row field
lookup by role (`themesmodel.cpp` is not part of the sources). -/
structure ThemesModel where
  rows : List ThemeEntry
deriving DecidableEq, Repr

/-- Modelled from the spec: the field of an entry that the list model keeps under a
role key (`ThemesModel::data` is not part of the sources). -/
def ThemeEntry.field (e : ThemeEntry) : Role → String
  | Role.DisplayRole => e.title
  | Role.IdRole => e.id
  | Role.PathRole => e.path
  | Role.PreviewRole => e.preview
  | Role.AuthorRole => e.author
  | Role.DescriptionRole => e.description
  | Role.LicenseRole => e.license
  | Role.EmailRole => e.email
  | Role.WebsiteRole => e.website
  | Role.CopyrightRole => e.copyright
  | Role.VersionRole => e.version

/-- Modelled from the spec: the row count of the list model, `model->rowCount()`. -/
def ThemesModel.rowCount (m : ThemesModel) : Nat := m.rows.length

/-- The function `QAbstractListModel::index(row, 0)`: valid exactly for an existing row. -/
def ThemesModel.index (m : ThemesModel) (row : Nat) : QModelIndex :=
  if row < m.rowCount then QModelIndex.valid row else QModelIndex.invalid

/-- Modelled from the spec: per-row field lookup by role, `model->data(index, role)`:
the row's field, an invalid variant when there is no such row. -/
def ThemesModel.data (m : ThemesModel) (index : QModelIndex) (role : Role) : QVariant :=
  match index with
  | QModelIndex.invalid => QVariant.invalid
  | QModelIndex.valid row =>
    match m.rows[row]? with
    | some e => QVariant.string (e.field role)
    | none => QVariant.invalid

/-! ## The configuration store and the widgets -/

/-- A `KConfig` file: entries addressed by group and key. -/
structure KConfig where
  entries : List ((String × String) × String)
deriving DecidableEq, Repr

/-- A `KConfigGroup`, obtained by `mConfig->group(name)`. -/
structure KConfigGroup where
  config : KConfig
  name : String

/-- The function `KConfig::group`. -/
def KConfig.group (c : KConfig) (name : String) : KConfigGroup := ⟨c, name⟩

/-- The function `KConfigGroup::readEntry(key)` with no default given: the stored
string, and the empty string when the entry is absent. -/
def KConfigGroup.readEntry (g : KConfigGroup) (key : String) : String :=
  match g.config.entries.lookup (g.name, key) with
  | some v => v
  | none => ""

/-- A `QVariantMap`: pairs kept in ascending key order, one per key. -/
abbrev QVariantMap := List (String × QVariant)

/-- The assignment `map[key] = value` of a `QVariantMap`. -/
def QVariantMap.insert (key : String) (value : QVariant) : QVariantMap → QVariantMap
  | [] => [(key, value)]
  | (k, v) :: rest =>
    if key < k then (key, value) :: (k, v) :: rest
    else if key = k then (key, value) :: rest
    else (k, v) :: QVariantMap.insert key value rest

/-- The list view: its model and its current index. -/
structure QListView where
  model : ThemesModel
  currentIndex : QModelIndex

/-- The declarative view: its source and the properties of its root context. -/
structure QDeclarativeView where
  source : String
  rootContext : String → Option String

/-- The function `QDeclarativeContext::setContextProperty`. -/
def QDeclarativeView.setContextProperty (v : QDeclarativeView) (name value : String) :
    QDeclarativeView :=
  { v with rootContext := fun n => if n = name then some value else v.rootContext n }

/-- The function `QDeclarativeView::setSource`. -/
def QDeclarativeView.setSource (v : QDeclarativeView) (path : String) : QDeclarativeView :=
  { v with source := path }

/-- The panel `ThemeConfig`: the configuration handle, the two widgets of `configUi`
and the `changed` signals emitted so far. -/
structure ThemeConfig where
  mConfig : KConfig
  themesListView : QListView
  declarativeView : QDeclarativeView
  changed : List Bool

/-! ## `themeconfig.cpp` -/

/-- The function `ThemeConfig::save`. -/
def ThemeConfig.save (self : ThemeConfig) : QVariantMap :=
  let index := self.themesListView.currentIndex
  if !index.isValid then
    []
  else
    let args : QVariantMap := []
    let args := QVariantMap.insert "sddm.conf/General/CurrentTheme"
      (self.themesListView.model.data index Role.IdRole) args
    args

/-- The loop of `ThemeConfig::findThemeIndex`, at row `i` with `remaining` rows
left below `rowCount`. -/
def ThemeConfig.findThemeIndexLoop (model : ThemesModel) (id : String) :
    Nat → Nat → QModelIndex
  | 0, _ => QModelIndex.invalid
  | remaining + 1, i =>
    let index := model.index i
    if (model.data index Role.IdRole).toString = id then
      index
    else
      ThemeConfig.findThemeIndexLoop model id remaining (i + 1)

/-- The function `ThemeConfig::findThemeIndex`. -/
def ThemeConfig.findThemeIndex (self : ThemeConfig) (id : String) : QModelIndex :=
  let model := self.themesListView.model
  ThemeConfig.findThemeIndexLoop model id model.rowCount 0

/-- The function `ThemeConfig::themeSelected`. An invalid index has no model to read
from (`index.model()` is null), which is the failure `none`. -/
def ThemeConfig.themeSelected (self : ThemeConfig) (index : QModelIndex) :
    Option ThemeConfig :=
  if !index.isValid then
    none
  else
    let model := self.themesListView.model
    let previewFilename := (model.data index Role.PathRole).toString
    let previewFilename := previewFilename ++ (model.data index Role.PreviewRole).toString
    let view := self.declarativeView
    let view := view.setContextProperty "themeName" (model.data index Role.DisplayRole).toString
    let view := view.setContextProperty "previewPath" previewFilename
    let view := view.setContextProperty "authorName" (model.data index Role.AuthorRole).toString
    let view := view.setContextProperty "description"
      (model.data index Role.DescriptionRole).toString
    let view := view.setContextProperty "license" (model.data index Role.LicenseRole).toString
    let view := view.setContextProperty "email" (model.data index Role.EmailRole).toString
    let view := view.setContextProperty "website" (model.data index Role.WebsiteRole).toString
    let view := view.setContextProperty "copyright"
      (model.data index Role.CopyrightRole).toString
    let view := view.setContextProperty "version" (model.data index Role.VersionRole).toString
    some { self with declarativeView := view, changed := self.changed ++ [true] }

/-- The function `ThemeConfig::prepareInitialTheme`; `locate` is
`KStandardDirs::locate`. -/
def ThemeConfig.prepareInitialTheme (locate : String → String → String)
    (self : ThemeConfig) : Option ThemeConfig :=
  let mainQmlPath := locate "data" "sddm-kcm/main.qml"
  let self := { self with declarativeView := self.declarativeView.setSource mainQmlPath }
  let initialTheme := (self.mConfig.group "General").readEntry "CurrentTheme"
  let index := self.findThemeIndex initialTheme
  if !index.isValid then
    some self
  else
    let self := { self with
      themesListView := { self.themesListView with currentIndex := index } }
    self.themeSelected index

/-- The constructor `ThemeConfig::ThemeConfig`, from the configuration file it opens and
the rows that `model->populate()` finds: no current index, no context property, no
signal, then `prepareInitialTheme` (the `dump` after it only logs). -/
def ThemeConfig.construct (locate : String → String → String) (config : KConfig)
    (populated : List ThemeEntry) : Option ThemeConfig :=
  let self : ThemeConfig :=
    { mConfig := config
      themesListView := ⟨⟨populated⟩, QModelIndex.invalid⟩
      declarativeView := ⟨"", fun _ => none⟩
      changed := [] }
  self.prepareInitialTheme locate

/-! ## Toolkit values used by the renderer -/

/-- The value of a C++ `int` (32 bits, two's complement) that an integer wraps to. -/
def wrapInt32 (x : Int) : Int := (x + 2147483648) % 4294967296 - 2147483648

/-- The sum `a + b` of two `int`s. -/
def addInt32 (a b : Int) : Int := wrapInt32 (a + b)

/-- The difference `a - b` of two `int`s. -/
def subInt32 (a b : Int) : Int := wrapInt32 (a - b)

/-- The product `a * b` of two `int`s. -/
def mulInt32 (a b : Int) : Int := wrapInt32 (a * b)

/-- A `QSize`. -/
structure QSize where
  width : Int
  height : Int
deriving DecidableEq, Repr

/-- A `QPoint`. -/
structure QPoint where
  x : Int
  y : Int
deriving DecidableEq, Repr

/-- A `QRect`, by its top-left corner and its size. -/
structure QRect where
  left : Int
  top : Int
  width : Int
  height : Int
deriving DecidableEq, Repr

/-- The constructor `QRect(topLeft, size)`. -/
def QRect.ofPointSize (p : QPoint) (s : QSize) : QRect := ⟨p.x, p.y, s.width, s.height⟩

/-- The function `QRect::topLeft`. -/
def QRect.topLeft (r : QRect) : QPoint := ⟨r.left, r.top⟩

/-- The function `QRect::size`. -/
def QRect.size (r : QRect) : QSize := ⟨r.width, r.height⟩

/-- The function `QRect::translated`. -/
def QRect.translated (r : QRect) (dx dy : Int) : QRect :=
  { r with left := addInt32 r.left dx, top := addInt32 r.top dy }

/-- A `QColor` by its channels, each read modulo 256. -/
structure QColor where
  red : Nat
  green : Nat
  blue : Nat
  alpha : Nat
deriving DecidableEq, Repr

/-- The colour `Qt::white`. -/
def QColor.white : QColor := ⟨255, 255, 255, 255⟩

/-- The colour `Qt::black`. -/
def QColor.black : QColor := ⟨0, 0, 0, 255⟩

/-- The colour `Qt::transparent`. -/
def QColor.transparent : QColor := ⟨0, 0, 0, 0⟩

/-- Two lower-case hexadecimal digits of a channel. -/
def hex2 (n : Nat) : String :=
  String.mk [Nat.digitChar (n % 256 / 16), Nat.digitChar (n % 16)]

/-- The function `QColor::name`: the text `#rrggbb`. -/
def QColor.name (c : QColor) : String := "#" ++ hex2 c.red ++ hex2 c.green ++ hex2 c.blue

/-- The function `qGray` of the colour's channels. -/
def QColor.qGray (c : QColor) : Nat :=
  (c.red % 256 * 11 + c.green % 256 * 16 + c.blue % 256 * 5) / 32

/-- The colour groups of `QPalette`. -/
inductive ColorGroup where
  | Active | Disabled | Inactive
deriving DecidableEq, Repr

/-- The colour roles of `QPalette` that the renderer reads. -/
inductive ColorRole where
  | Base | Text | HighlightedText
deriving DecidableEq, Repr

/-- A `QBrush`, by its colour. -/
structure QBrush where
  color : QColor
deriving DecidableEq, Repr

/-- A `QPalette`: a brush per group and role, and the current group. -/
structure QPalette where
  currentColorGroup : ColorGroup
  brushes : ColorGroup → ColorRole → QBrush

/-- The function `QPalette::brush(group, role)`. -/
def QPalette.brush (p : QPalette) (cg : ColorGroup) (role : ColorRole) : QBrush := p.brushes cg role

/-- The function `QPalette::brush(role)`, in the current group. -/
def QPalette.currentBrush (p : QPalette) (role : ColorRole) : QBrush :=
  p.brushes p.currentColorGroup role

/-- The function `QPalette::color(role)`, in the current group. -/
def QPalette.color (p : QPalette) (role : ColorRole) : QColor := (p.currentBrush role).color

/-- The flag `QStyle::State_Enabled`. -/
def State_Enabled : Nat := 0x00000001

/-- The flag `QStyle::State_Selected`. -/
def State_Selected : Nat := 0x00008000

/-- The flag `QStyle::State_Active`. -/
def State_Active : Nat := 0x00010000

/-- A `QStyleOptionViewItem`: the cell rectangle, the palette and the state flags. -/
structure QStyleOptionViewItem where
  rect : QRect
  palette : QPalette
  state : Nat

/-- A `QStyleOptionViewItemV4` copied from an option. -/
structure QStyleOptionViewItemV4 where
  base : QStyleOptionViewItem
  showDecorationSelected : Bool

/-- A `QPixmap`: null, or an image of some size. -/
inductive QPixmap where
  | null
  | image (size : QSize)
deriving DecidableEq, Repr

/-- The function `QPixmap::isNull`. -/
def QPixmap.isNull : QPixmap → Bool
  | QPixmap.null => true
  | QPixmap.image _ => false

/-- The function `QPixmap::size`. -/
def QPixmap.size : QPixmap → QSize
  | QPixmap.null => ⟨0, 0⟩
  | QPixmap.image s => s

/-- The function `QSize::scale(s, Qt::KeepAspectRatio)`; the products and quotients are
taken in 64 bits and the results stored back into `int`s. -/
def QSize.scaledKeepAspectRatio (self s : QSize) : QSize :=
  if self.width = 0 ∨ self.height = 0 then s
  else
    let rw := (s.height * self.width).tdiv self.height
    if rw ≤ s.width then ⟨wrapInt32 rw, s.height⟩
    else ⟨s.width, wrapInt32 ((s.width * self.height).tdiv self.width)⟩

/-- The function `QPixmap::scaled(s, Qt::KeepAspectRatio, _)`: a null pixmap, and
an empty target size, give the null pixmap. -/
def QPixmap.scaled (p : QPixmap) (s : QSize) : QPixmap :=
  match p with
  | QPixmap.null => QPixmap.null
  | QPixmap.image size =>
    if s.width ≤ 0 ∨ s.height ≤ 0 then QPixmap.null
    else QPixmap.image (size.scaledKeepAspectRatio s)

/-- A step in the making of a `QImage`. -/
inductive ImageOp where
  | fill (color : QColor)
  | fillRect (rect : QRect) (color : QColor)
  | shadowBlur (radius : Nat) (color : QColor)
deriving DecidableEq, Repr

/-- A `QImage`: its size and the steps applied to it, in order. -/
structure QImage where
  size : QSize
  ops : List ImageOp
deriving DecidableEq, Repr

/-- A `QTextDocument`: its markup and its text width (`-1` when unset). -/
structure QTextDocument where
  html : String
  textWidth : Int
deriving DecidableEq, Repr

/-- A drawing command received by the painter. -/
inductive PaintCommand where
  | drawPanelItemViewItem (opt : QStyleOptionViewItemV4)
  | fillRect (rect : QRect) (brush : QBrush)
  | drawImage (topLeft : QPoint) (image : QImage)
  | drawPixmap (rect : QRect) (pix : QPixmap)
  | save
  | translate (x y : Int)
  | drawContents (document : QTextDocument) (clip : QRect)
  | restore

/-- A `QPainter`: the commands it received, in order. -/
abbrev QPainter := List PaintCommand

/-- What the renderer asks of the application and of the toolkit. -/
structure Env where
  /-- The constructor `QPixmap(fileName)`. -/
  loadPixmap : String → QPixmap
  /-- The value `KGlobalSettings::smallestReadableFont().pointSize()`. -/
  smallestReadableFontPointSize : Int
  /-- The function `i18nc(context, text, argument)`. -/
  i18nc : String → String → String → String
  /-- The palette `QApplication::palette()`. -/
  applicationPalette : QPalette
  /-- The value `(int)(document.size().height())` of a laid out document. -/
  documentHeight : QTextDocument → Int

/-! ## `themesdelegate.cpp` -/

/-- The constant `BLUR_PAD`. -/
def BLUR_PAD : Int := 6

/-- The delegate `ThemesDelegate`. The constants `SCREENSHOT_SIZE`, `BLUR_INCREMENT` and
`MARGIN` come from `themesdelegate.h`, which is not part of the sources, and
`screenshotHeight` is the integer that `SCREENSHOT_SIZE/1.6` converts to. -/
structure ThemesDelegate where
  SCREENSHOT_SIZE : Int
  screenshotHeight : Int
  BLUR_INCREMENT : Int
  MARGIN : Int
  m_maxHeight : Int
  m_maxWidth : Int
  mSize : QSize

/-- The function `ThemesDelegate::setPreviewSize`. -/
def ThemesDelegate.setPreviewSize (self : ThemesDelegate) (size : QSize) : ThemesDelegate :=
  { self with mSize := size }

/-- The caption markup of `ThemesDelegate::paint` before it is wrapped in the
coloured block: the title, then the author and website lines. Each
`QString(template).arg(..)` is written as the template with its place markers
replaced by the arguments. -/
def ThemesDelegate.paintCaptionHtml (env : Env) (title author website : String) : String :=
  let html := "<strong>" ++ title ++ "</strong>"
  let fontSize := env.smallestReadableFontPointSize
  let html :=
    if author ≠ "" then
      let authorCaption := env.i18nc "Caption to theme preview, %1 author name" "by %1" author
      html ++ ("<br /><span style=\"font-size: " ++ toString fontSize ++ "pt;\">"
        ++ authorCaption ++ "</span>")
    else html
  let html :=
    if website ≠ "" then
      html ++ ("<br /><span style=\"font-size: " ++ toString fontSize ++ "pt;\">"
        ++ website ++ "</span>")
    else html
  html

/-- The text colour of `ThemesDelegate::paint` for the state flags of the item. -/
def ThemesDelegate.paintTextColor (env : Env) (state : Nat) : QColor :=
  let cg := ColorGroup.Active
  let cg :=
    if state &&& State_Enabled = 0 then ColorGroup.Disabled
    else if state &&& State_Active = 0 then ColorGroup.Inactive
    else cg
  if state &&& State_Selected ≠ 0 then
    (env.applicationPalette.brush cg ColorRole.HighlightedText).color
  else
    (env.applicationPalette.brush cg ColorRole.Text).color

/-- The document that `ThemesDelegate::paint` lays out and draws. -/
def ThemesDelegate.paintDocument (self : ThemesDelegate) (env : Env)
    (option : QStyleOptionViewItem) (title author website : String) : QTextDocument :=
  let html := ThemesDelegate.paintCaptionHtml env title author website
  let color := ThemesDelegate.paintTextColor env option.state
  let html := "<div style=\"color: " ++ color.name ++ "\" align=\"center\">" ++ html ++ "</div>"
  let document : QTextDocument := ⟨html, -1⟩
  { document with textWidth := self.m_maxWidth }

/-- The thumbnail part of `ThemesDelegate::paint`: the fallback fill for a null
pixmap, else the blurred shadow and the thumbnail on it. -/
def ThemesDelegate.paintThumbnail (self : ThemesDelegate) (painter : QPainter)
    (option : QStyleOptionViewItem) (pix : QPixmap) : QPainter :=
  if pix.isNull then
    painter ++ [PaintCommand.fillRect option.rect (option.palette.currentBrush ColorRole.Base)]
  else
    let blurSize : QSize :=
      ⟨addInt32 pix.size.width (addInt32 self.BLUR_INCREMENT BLUR_PAD),
       addInt32 pix.size.height (addInt32 self.BLUR_INCREMENT BLUR_PAD)⟩
    let blurRect := QRect.ofPointSize
      ⟨(subInt32 blurSize.width pix.size.width).tdiv 2,
       (subInt32 blurSize.height pix.size.height).tdiv 2⟩
      pix.size
    let color := option.palette.color ColorRole.Base
    let darkBaseColor := decide (color.qGray < 192)
    let shade := if darkBaseColor then QColor.white else QColor.black
    let blur : QImage :=
      ⟨blurSize, [ImageOp.fill QColor.transparent, ImageOp.fillRect blurRect shade,
        ImageOp.shadowBlur 2 shade]⟩
    let bx := (subInt32 option.rect.width blur.size.width).tdiv 2
    let by_ := addInt32 self.MARGIN (max 0 (subInt32 self.m_maxHeight blur.size.height))
    let shadowRect := (QRect.ofPointSize option.rect.topLeft blur.size).translated bx by_
    let painter := painter ++ [PaintCommand.drawImage shadowRect.topLeft blur]
    painter ++ [PaintCommand.drawPixmap
      (QRect.ofPointSize
        ⟨addInt32 shadowRect.topLeft.x ((subInt32 shadowRect.width pix.size.width).tdiv 2),
         addInt32 shadowRect.topLeft.y ((subInt32 shadowRect.height pix.size.height).tdiv 2)⟩
        pix.size) pix]

/-- The function `ThemesDelegate::paint`. An invalid index has no model to read from
(`index.model()` is null), which is the failure `none`. Coordinates are `int`s, so their
sums, differences and products wrap to 32 bits. -/
def ThemesDelegate.paint (self : ThemesDelegate) (env : Env) (painter : QPainter)
    (option : QStyleOptionViewItem) (model : ThemesModel) (index : QModelIndex) :
    Option QPainter :=
  if !index.isValid then
    none
  else
    let previewFilename := (model.data index Role.PathRole).toString
    let previewFilename := previewFilename ++ (model.data index Role.PreviewRole).toString
    let title := (model.data index Role.DisplayRole).toString
    let author := (model.data index Role.AuthorRole).toString
    let website := (model.data index Role.WebsiteRole).toString
    let originalPix := env.loadPixmap previewFilename
    let pix := originalPix.scaled ⟨self.SCREENSHOT_SIZE, self.screenshotHeight⟩
    let opt : QStyleOptionViewItemV4 := ⟨option, false⟩
    let opt := { opt with showDecorationSelected := true }
    let painter := painter ++ [PaintCommand.drawPanelItemViewItem opt]
    let painter := self.paintThumbnail painter option pix
    let document := self.paintDocument env option title author website
    let x := addInt32 option.rect.left self.MARGIN
    let y := addInt32 (addInt32 option.rect.top self.m_maxHeight) (mulInt32 self.MARGIN 2)
    let painter := painter ++ [PaintCommand.save]
    let painter := painter ++ [PaintCommand.translate x y]
    let painter := painter ++ [PaintCommand.drawContents document
      (QRect.ofPointSize ⟨0, 0⟩
        ⟨subInt32 option.rect.size.width 0,
         subInt32 option.rect.size.height
           (addInt32 self.m_maxHeight (mulInt32 self.MARGIN 2))⟩)]
    let painter := painter ++ [PaintCommand.restore]
    some painter

/-- The document that `ThemesDelegate::sizeHint` lays out to measure the caption. -/
def ThemesDelegate.sizeHintDocument (self : ThemesDelegate) (env : Env)
    (title author website : String) : QTextDocument :=
  let fontSize := env.smallestReadableFontPointSize
  let html := "<strong>" ++ title ++ "</strong><br />"
  let html :=
    if author ≠ "" then
      html ++ ("<span style=\"font-size: " ++ toString fontSize ++ "pt;\">by " ++ author
        ++ "</span><br />")
    else html
  let html :=
    if website ≠ "" then
      html ++ ("<span style=\"font-size: " ++ toString fontSize ++ "pt;\">" ++ website
        ++ "</span><br />")
    else html
  let document : QTextDocument := ⟨html, -1⟩
  { document with textWidth := self.m_maxWidth }

/-- The function `ThemesDelegate::sizeHint`; the option is unused. An invalid index
has no model to read from, which is the failure `none`. -/
def ThemesDelegate.sizeHint (self : ThemesDelegate) (env : Env)
    (_option : QStyleOptionViewItem) (model : ThemesModel) (index : QModelIndex) :
    Option QSize :=
  if !index.isValid then
    none
  else
    let title := (model.data index Role.DisplayRole).toString
    let author := (model.data index Role.AuthorRole).toString
    let website := (model.data index Role.WebsiteRole).toString
    let document := self.sizeHintDocument env title author website
    some ⟨addInt32 self.m_maxWidth (mulInt32 self.MARGIN 2),
      addInt32 (addInt32 self.m_maxHeight (mulInt32 self.MARGIN 3))
        (env.documentHeight document)⟩

/-! ## Line breaks of a markup text -/

/-- The line-break tag. -/
def brTag : List Char := ['<', 'b', 'r', ' ', '/', '>']

/-- Puts a character in front of the first segment. -/
def consHead (c : Char) : List (List Char) → List (List Char)
  | [] => [[c]]
  | l :: ls => (c :: l) :: ls

/-- The segments of a text separated by line-break tags; `skip` characters of a tag
just met are still to be passed over. -/
def splitBrAux : List Char → Nat → List (List Char)
  | [], _ => [[]]
  | _ :: cs, skip + 1 => splitBrAux cs skip
  | c :: cs, 0 =>
    if brTag.isPrefixOf (c :: cs) then [] :: splitBrAux cs (brTag.length - 1)
    else consHead c (splitBrAux cs 0)

/-- The lines of a markup text: its segments separated by `<br />`. -/
def captionLines (html : String) : List String :=
  (splitBrAux html.toList 0).map String.mk

/-! ## Sample values -/

/-- A theme with an empty website. -/
def sampleBreeze : ThemeEntry :=
  ⟨"breeze", "Breeze", "KDE Visual Design Group", "", "The Breeze theme", "GPL",
    "plasma-devel@kde.org", "(c) 2014", "0.1", "/usr/share/sddm/themes/breeze/", "preview.png"⟩

/-- A theme with every field filled in. -/
def sampleMaui : ThemeEntry :=
  ⟨"maui", "Maui", "Pier Luigi", "http://www.maui-project.org", "The Maui theme", "CC-BY",
    "pier@example.org", "(c) 2013", "1.0", "/usr/share/sddm/themes/maui/", "maui.jpg"⟩

/-- A second theme that carries the identifier of `sampleMaui`. -/
def sampleMauiCopy : ThemeEntry := { sampleMaui with title := "Maui (copy)", path := "/opt/maui/" }

/-- A panel with three rows, row 1 current, and the details of `sampleMaui` shown. -/
def samplePanel : ThemeConfig :=
  { mConfig := ⟨[(("General", "CurrentTheme"), "maui")]⟩
    themesListView := ⟨⟨[sampleBreeze, sampleMaui, sampleMauiCopy]⟩, QModelIndex.valid 1⟩
    declarativeView :=
      ⟨"main.qml", fun n => if n = "website" then some "http://www.maui-project.org" else none⟩
    changed := [] }

/-- The panel `samplePanel` with row 0 current. -/
def sampleBreezePanel : ThemeConfig :=
  { samplePanel with
    themesListView := { samplePanel.themesListView with currentIndex := QModelIndex.valid 0 } }

/-- A freshly set up panel with three rows, whose stored theme is `elarun`. -/
def sampleFreshPanel : ThemeConfig :=
  { mConfig := ⟨[(("General", "CurrentTheme"), "elarun")]⟩
    themesListView := ⟨⟨[sampleBreeze, sampleMaui, sampleMauiCopy]⟩, QModelIndex.invalid⟩
    declarativeView := ⟨"", fun _ => none⟩
    changed := [] }

/-- A stand-in for `KStandardDirs::locate`. -/
def sampleLocate (type file : String) : String := "/usr/share/" ++ type ++ "/" ++ file

/-- The start of `y` cannot continue a line-break tag begun before it. -/
def SafeNext (y : List Char) : Prop := ∀ c ∈ brTag.tail, y.head? ≠ some c

/-- A palette whose highlighted text is white when active, grey when inactive and
black when disabled, and whose other text is black. -/
def samplePalette : QPalette :=
  { currentColorGroup := ColorGroup.Active
    brushes := fun cg role =>
      match role, cg with
      | ColorRole.HighlightedText, ColorGroup.Active => ⟨QColor.white⟩
      | ColorRole.HighlightedText, ColorGroup.Inactive => ⟨⟨128, 128, 128, 255⟩⟩
      | ColorRole.HighlightedText, ColorGroup.Disabled => ⟨QColor.black⟩
      | ColorRole.Base, _ => ⟨QColor.white⟩
      | ColorRole.Text, _ => ⟨QColor.black⟩ }

/-- An application with no decodable preview, an 8 point smallest readable font, no
translation catalogue, `samplePalette`, and 14 pixels of height per line break. -/
def sampleEnv : Env :=
  { loadPixmap := fun _ => QPixmap.null
    smallestReadableFontPointSize := 8
    i18nc := fun _ _ a => "by " ++ a
    applicationPalette := samplePalette
    documentHeight := fun d => 14 * ((splitBrAux d.html.toList 0).length - 1) }

/-- A delegate with a 128 pixel wide screenshot box. -/
def sampleDelegate : ThemesDelegate :=
  { SCREENSHOT_SIZE := 128, screenshotHeight := 80, BLUR_INCREMENT := 9, MARGIN := 6,
    m_maxHeight := 89, m_maxWidth := 137, mSize := ⟨128, 128⟩ }

/-- A style option for a 149 by 160 cell at the origin. -/
def sampleOption (state : Nat) : QStyleOptionViewItem :=
  { rect := ⟨0, 0, 149, 160⟩, palette := samplePalette, state := state }

/-- A selected, enabled and active one pixel wide cell at the far end of the `int` range. -/
def sampleEdgeOption : QStyleOptionViewItem :=
  { rect := ⟨2147483647, 2147483547, 1, 100⟩, palette := samplePalette,
    state := State_Selected ||| State_Enabled ||| State_Active }

/-- A caption line below the title: the text in a span of the small font size. -/
def spanLine (fontSize : Int) (text : String) : String :=
  "<span style=\"font-size: " ++ toString fontSize ++ "pt;\">" ++ text ++ "</span>"

/-- The caption lines of an entry, in order: the bold title, the author line when the
author is not empty, the website line when the website is not empty. -/
def captionLineList (fontSize : Int) (title author authorCaption website : String) :
    List String :=
  ["<strong>" ++ title ++ "</strong>"]
    ++ (if author ≠ "" then [spanLine fontSize authorCaption] else [])
    ++ (if website ≠ "" then [spanLine fontSize website] else [])

/-! ## The selection controller: lemmas -/

theorem data_valid_of_getElem? (m : ThemesModel) (row : Nat) (e : ThemeEntry) (role : Role)
    (h : m.rows[row]? = some e) :
    m.data (QModelIndex.valid row) role = QVariant.string (e.field role) := by
  simp [ThemesModel.data, h]

theorem index_of_lt (m : ThemesModel) (row : Nat) (h : row < m.rows.length) :
    m.index row = QModelIndex.valid row := by
  simp [ThemesModel.index, ThemesModel.rowCount, h]

/-- The loop started at row `i` with the rows from `i` on left to visit returns the first
row at or after `i` whose identifier is `id`, and the invalid index when there is none. -/
theorem findThemeIndexLoop_spec (m : ThemesModel) (id : String) :
    ∀ (k i : Nat), i + k = m.rows.length →
      (∀ r, ThemeConfig.findThemeIndexLoop m id k i = QModelIndex.valid r ↔
        (i ≤ r ∧ ∃ e, m.rows[r]? = some e ∧ e.id = id ∧
          ∀ j, i ≤ j → j < r → ∀ e', m.rows[j]? = some e' → e'.id ≠ id)) ∧
      (ThemeConfig.findThemeIndexLoop m id k i = QModelIndex.invalid ↔
        ∀ j, i ≤ j → ∀ e', m.rows[j]? = some e' → e'.id ≠ id) := by
  intro k
  induction k with
  | zero =>
    intro i hi
    simp only [ThemeConfig.findThemeIndexLoop]
    constructor
    · intro r
      constructor
      · intro h; cases h
      · rintro ⟨hir, e, he, -, -⟩
        have hlt : r < m.rows.length := (List.getElem?_eq_some.mp he).1
        omega
    · constructor
      · intro _ j hij e' he'
        have hlt : j < m.rows.length := (List.getElem?_eq_some.mp he').1
        omega
      · intro _; trivial
  | succ k ih =>
    intro i hi
    have hlt : i < m.rows.length := by omega
    have hget : m.rows[i]? = some m.rows[i] := List.getElem?_eq_getElem hlt
    have hdata : (m.data (QModelIndex.valid i) Role.IdRole).toString = m.rows[i].id := by
      rw [data_valid_of_getElem? m i _ _ hget]
      rfl
    simp only [ThemeConfig.findThemeIndexLoop, index_of_lt m i hlt, hdata]
    by_cases hid : m.rows[i].id = id
    · simp only [hid, if_true]
      constructor
      · intro r
        constructor
        · intro h
          cases h
          exact ⟨le_refl _, _, hget, hid, fun j h1 h2 => by omega⟩
        · rintro ⟨hir, e, he, hide, hfirst⟩
          rcases Nat.eq_or_lt_of_le hir with h | h
          · rw [h]
          · exact absurd hid (hfirst i (le_refl _) h _ hget)
      · constructor
        · intro h; cases h
        · intro h; exact absurd hid (h i (le_refl _) _ hget)
    · simp only [hid, if_false]
      obtain ⟨ih1, ih2⟩ := ih (i + 1) (by omega)
      constructor
      · intro r
        rw [ih1 r]
        constructor
        · rintro ⟨hir, e, he, hide, hfirst⟩
          refine ⟨by omega, e, he, hide, ?_⟩
          intro j h1 h2 e' he'
          rcases Nat.eq_or_lt_of_le h1 with h | h
          · subst h
            rw [hget] at he'
            cases he'
            exact hid
          · exact hfirst j h h2 e' he'
        · rintro ⟨hir, e, he, hide, hfirst⟩
          have hne : i ≠ r := by
            intro h
            subst h
            rw [hget] at he
            cases he
            exact hid hide
          refine ⟨by omega, e, he, hide, ?_⟩
          intro j h1 h2 e' he'
          exact hfirst j (by omega) h2 e' he'
      · rw [ih2]
        constructor
        · intro h j h1 e' he'
          rcases Nat.eq_or_lt_of_le h1 with h' | h'
          · subst h'
            rw [hget] at he'
            cases he'
            exact hid
          · exact h j h' e' he'
        · intro h j h1 e' he'
          exact h j (by omega) e' he'

theorem save_of_valid (self : ThemeConfig) (row : Nat)
    (h : self.themesListView.currentIndex = QModelIndex.valid row) :
    self.save = [("sddm.conf/General/CurrentTheme",
      self.themesListView.model.data (QModelIndex.valid row) Role.IdRole)] := by
  simp [ThemeConfig.save, h, QModelIndex.isValid, QVariantMap.insert]

theorem themeSelected_valid (self : ThemeConfig) (row : Nat) :
    ∃ st, self.themeSelected (QModelIndex.valid row) = some st ∧
      st.mConfig = self.mConfig ∧ st.themesListView = self.themesListView ∧
      st.changed = self.changed ++ [true] := by
  simp [ThemeConfig.themeSelected, QModelIndex.isValid]

/-- With a stored identifier that no row carries the search is invalid. -/
theorem findThemeIndex_invalid_of_no_match (self : ThemeConfig) (id : String)
    (h : ∀ e ∈ self.themesListView.model.rows, e.id ≠ id) :
    self.findThemeIndex id = QModelIndex.invalid := by
  have := (findThemeIndexLoop_spec self.themesListView.model id
    self.themesListView.model.rows.length 0 (by simp)).2
  simp only [ThemeConfig.findThemeIndex, ThemesModel.rowCount]
  rw [this]
  intro j _ e' he'
  exact h e' (List.getElem?_mem he')

/-! ## Line breaks: lemmas -/

/-- No digit character is the opening angle bracket. -/
theorem digitChar_ne_lt (n : Nat) : Nat.digitChar n ≠ '<' := by
  by_cases h : n < 16
  · interval_cases n <;> decide
  · have hstar : Nat.digitChar n = '*' := by
      unfold Nat.digitChar
      iterate 16 rw [if_neg (by omega)]
    rw [hstar]
    decide

theorem toDigitsCore_no_lt (fuel : Nat) :
    ∀ (n : Nat) (ds : List Char), (∀ c ∈ ds, c ≠ '<') →
      ∀ c ∈ Nat.toDigitsCore 10 fuel n ds, c ≠ '<' := by
  induction fuel with
  | zero => intro n ds h; simpa [Nat.toDigitsCore] using h
  | succ fuel ih =>
    intro n ds h
    have hds : ∀ c ∈ Nat.digitChar (n % 10) :: ds, c ≠ '<' := by
      intro c hc
      rcases List.mem_cons.mp hc with rfl | hc
      · exact digitChar_ne_lt _
      · exact h c hc
    simp only [Nat.toDigitsCore]
    split
    · exact hds
    · exact ih _ _ hds

theorem natRepr_no_lt (n : Nat) : ∀ c ∈ (Nat.repr n).toList, c ≠ '<' := by
  simp only [Nat.repr, Nat.toDigits, String.toList, List.asString]
  exact toDigitsCore_no_lt _ _ _ (by simp)

/-- The decimal text of an integer holds no opening angle bracket. -/
theorem intToString_no_lt (n : Int) : ∀ c ∈ (toString n).toList, c ≠ '<' := by
  cases n with
  | ofNat m => exact natRepr_no_lt m
  | negSucc m =>
    intro c hc
    have hc' : c ∈ "-".toList ++ (Nat.repr (m + 1)).toList := hc
    rcases List.mem_append.mp hc' with h | h
    · have : c = '-' := by simpa using h
      rw [this]; decide
    · exact natRepr_no_lt _ c h

/-- A text without an opening angle bracket holds no line-break tag. -/
theorem no_br_of_no_lt (s : List Char) (h : ∀ c ∈ s, c ≠ '<') : ¬ brTag <:+: s := by
  intro hin
  exact h '<' (hin.subset (by simp [brTag])) rfl

/-- A tag that starts inside `t` and runs into `y` either lies in `t` or `y` starts with a
character of the tag's tail. -/
theorem prefix_append_cases (p t y : List Char) (ht : t ≠ []) (h : p <+: t ++ y) :
    p <+: t ∨ ∃ c ∈ p.tail, y.head? = some c := by
  by_cases hlen : p.length ≤ t.length
  · exact Or.inl (List.prefix_of_prefix_length_le h (List.prefix_append t y) hlen)
  · right
    have htp : t <+: p :=
      List.prefix_of_prefix_length_le (List.prefix_append t y) h (by omega)
    obtain ⟨q, hq⟩ := htp
    subst hq
    have hqy : q <+: y := (List.prefix_append_right_inj t).mp h
    cases q with
    | nil => simp at hlen
    | cons c q' =>
      obtain ⟨r, hr⟩ := hqy
      subst hr
      refine ⟨c, ?_, by simp⟩
      cases t with
      | nil => exact absurd rfl ht
      | cons a t' => simp

theorem not_prefix_append (t y : List Char) (ht : t ≠ []) (hno : ¬ brTag <:+: t)
    (hy : SafeNext y) : ¬ brTag <+: t ++ y := by
  intro h
  rcases prefix_append_cases brTag t y ht h with h | ⟨c, hc, hhead⟩
  · exact hno h.isInfix
  · exact hy c hc hhead

/-- Two texts without a line-break tag join into one without, when the second cannot
continue a tag. -/
theorem no_br_append (x y : List Char) (hx : ¬ brTag <:+: x) (hy : ¬ brTag <:+: y)
    (hsafe : SafeNext y) : ¬ brTag <:+: x ++ y := by
  induction x with
  | nil => simpa using hy
  | cons c x ih =>
    rw [List.cons_append, List.infix_cons_iff]
    rintro (h | h)
    · exact not_prefix_append (c :: x) y (by simp) hx hsafe h
    · exact ih (fun h' => hx (List.infix_cons h')) h

theorem safeNext_lt (rest : List Char) : SafeNext ('<' :: rest) := by
  intro c hc
  simp only [brTag, List.tail_cons, List.mem_cons, List.mem_singleton, List.not_mem_nil,
    or_false] at hc
  rcases hc with rfl | rfl | rfl | rfl | rfl <;> simp

theorem safeNext_p (rest : List Char) : SafeNext ('p' :: rest) := by
  intro c hc
  simp only [brTag, List.tail_cons, List.mem_cons, List.mem_singleton, List.not_mem_nil,
    or_false] at hc
  rcases hc with rfl | rfl | rfl | rfl | rfl <;> simp

/-- A text without a line-break tag is one segment. -/
theorem splitBrAux_no_br (a : List Char) (h : ¬ brTag <:+: a) : splitBrAux a 0 = [a] := by
  induction a with
  | nil => rfl
  | cons c a ih =>
    have hp : ¬ brTag <+: c :: a := fun hp => h hp.isInfix
    have hi := ih (fun h' => h (List.infix_cons h'))
    simp only [splitBrAux, List.isPrefixOf_iff_prefix, hp, if_false, hi, consHead]

/-- A text without a line-break tag, followed by a tag, is the first segment. -/
theorem splitBrAux_append_br (a rest : List Char) (h : ¬ brTag <:+: a) :
    splitBrAux (a ++ (brTag ++ rest)) 0 = a :: splitBrAux rest 0 := by
  induction a with
  | nil =>
    simp [brTag, splitBrAux]
  | cons c a ih =>
    have hp : ¬ brTag <+: (c :: a) ++ (brTag ++ rest) :=
      not_prefix_append (c :: a) _ (by simp) h (safeNext_lt _)
    have hi := ih (fun h' => h (List.infix_cons h'))
    rw [List.cons_append] at hp ⊢
    simp only [splitBrAux, List.isPrefixOf_iff_prefix, hp, if_false, hi, consHead]

/-- A character other than the opening angle bracket starts no line-break tag. -/
theorem no_br_cons (c : Char) (y : List Char) (hc : c ≠ '<') (hy : ¬ brTag <:+: y) :
    ¬ brTag <:+: c :: y := by
  rw [List.infix_cons_iff]
  rintro (h | h)
  · simp only [brTag, List.cons_prefix_cons] at h
    exact hc h.1.symm
  · exact hy h

/-- An opening angle bracket not followed by `b` starts no line-break tag. -/
theorem no_br_lt_cons (d : Char) (y : List Char) (hd : d ≠ 'b')
    (hy : ¬ brTag <:+: d :: y) : ¬ brTag <:+: '<' :: d :: y := by
  rw [List.infix_cons_iff]
  rintro (h | h)
  · simp only [brTag, List.cons_prefix_cons] at h
    exact hd h.2.1.symm
  · exact hy h

theorem strong_toList (title : String) :
    ("<strong>" ++ title ++ "</strong>").toList =
      ['<', 's', 't', 'r', 'o', 'n', 'g', '>'] ++
        (title.toList ++ ['<', '/', 's', 't', 'r', 'o', 'n', 'g', '>']) := by
  simp only [String.toList, String.data_append, List.append_assoc]

/-- The title line holds no line-break tag when the title holds none. -/
theorem strong_no_br (title : String) (h : ¬ brTag <:+: title.toList) :
    ¬ brTag <:+: ("<strong>" ++ title ++ "</strong>").toList := by
  rw [strong_toList]
  have h1 : ¬ brTag <:+: title.toList ++ ['<', '/', 's', 't', 'r', 'o', 'n', 'g', '>'] :=
    no_br_append _ _ h (by decide) (safeNext_lt _)
  simp only [List.cons_append, List.nil_append]
  refine no_br_lt_cons _ _ (by decide) ?_
  repeat (refine no_br_cons _ _ (by decide) ?_)
  exact h1

theorem spanLine_toList (fontSize : Int) (text : String) :
    (spanLine fontSize text).toList =
      ['<', 's', 'p', 'a', 'n', ' ', 's', 't', 'y', 'l', 'e', '=', '"', 'f', 'o', 'n', 't',
        '-', 's', 'i', 'z', 'e', ':', ' '] ++
      ((toString fontSize).toList ++ (['p', 't', ';', '"', '>'] ++
        (text.toList ++ ['<', '/', 's', 'p', 'a', 'n', '>']))) := by
  simp only [spanLine, String.toList, String.data_append, List.append_assoc]

/-- A span line holds no line-break tag when its text holds none. -/
theorem spanLine_no_br (fontSize : Int) (text : String) (h : ¬ brTag <:+: text.toList) :
    ¬ brTag <:+: (spanLine fontSize text).toList := by
  rw [spanLine_toList]
  have h1 : ¬ brTag <:+: text.toList ++ ['<', '/', 's', 'p', 'a', 'n', '>'] :=
    no_br_append _ _ h (by decide) (safeNext_lt _)
  have h2 : ¬ brTag <:+: ['p', 't', ';', '"', '>'] ++
      (text.toList ++ ['<', '/', 's', 'p', 'a', 'n', '>']) := by
    simp only [List.cons_append, List.nil_append]
    repeat (refine no_br_cons _ _ (by decide) ?_)
    exact h1
  have h3 : ¬ brTag <:+: (toString fontSize).toList ++ (['p', 't', ';', '"', '>'] ++
      (text.toList ++ ['<', '/', 's', 'p', 'a', 'n', '>'])) :=
    no_br_append _ _ (no_br_of_no_lt _ (intToString_no_lt fontSize)) h2 (safeNext_p _)
  simp only [List.cons_append, List.nil_append]
  refine no_br_lt_cons _ _ (by decide) ?_
  repeat (refine no_br_cons _ _ (by decide) ?_)
  exact h3

/-- The caption markup of `paint` is its caption lines joined by the line-break tag. -/
theorem paintCaptionHtml_eq_intercalate (env : Env) (title author website : String) :
    ThemesDelegate.paintCaptionHtml env title author website =
      String.intercalate "<br />"
        (captionLineList env.smallestReadableFontPointSize title author
          (env.i18nc "Caption to theme preview, %1 author name" "by %1" author) website) := by
  have hspan : ∀ text : String,
      "<br /><span style=\"font-size: " ++ toString env.smallestReadableFontPointSize
        ++ "pt;\">" ++ text ++ "</span>" =
      "<br />" ++ spanLine env.smallestReadableFontPointSize text := by
    intro text
    apply String.ext
    simp only [spanLine, String.data_append, List.append_assoc]
    rfl
  simp only [ThemesDelegate.paintCaptionHtml, captionLineList, hspan]
  by_cases ha : author = "" <;> by_cases hw : website = "" <;>
    simp only [ha, hw, ne_eq, not_true_eq_false, not_false_eq_true, if_true, if_false,
      List.append_nil, List.cons_append, List.nil_append, String.intercalate,
      String.intercalate.go, String.append_assoc]

/-- The characters of the caption markup of `paint`. -/
theorem paintCaptionHtml_toList (env : Env) (title author website : String) :
    (ThemesDelegate.paintCaptionHtml env title author website).toList =
      ("<strong>" ++ title ++ "</strong>").toList ++
        ((if author ≠ "" then
            brTag ++ (spanLine env.smallestReadableFontPointSize
              (env.i18nc "Caption to theme preview, %1 author name" "by %1" author)).toList
          else []) ++
         (if website ≠ "" then
            brTag ++ (spanLine env.smallestReadableFontPointSize website).toList
          else [])) := by
  rw [paintCaptionHtml_eq_intercalate]
  by_cases ha : author = "" <;> by_cases hw : website = "" <;>
    simp [ha, hw, captionLineList, String.intercalate, String.intercalate.go, String.toList,
      String.data_append, brTag]

/-! ## The selection controller: claims -/

/-- C1: `ThemeConfig::save` returns the empty map when the list view has no valid
current index; with a valid current index it returns a map of exactly one entry whose
value is the `IdRole` data of the current row, which for an existing row is that row's
identifier. -/
theorem save_result (self : ThemeConfig) :
    (self.themesListView.currentIndex.isValid = false → self.save = []) ∧
    (∀ row, self.themesListView.currentIndex = QModelIndex.valid row →
      self.save.length = 1 ∧
      self.save.map Prod.snd =
        [self.themesListView.model.data (QModelIndex.valid row) Role.IdRole]) ∧
    (∀ row e, self.themesListView.currentIndex = QModelIndex.valid row →
      self.themesListView.model.rows[row]? = some e →
      self.save.map Prod.snd = [QVariant.string e.id]) := by
  refine ⟨?_, ?_, ?_⟩
  · intro h
    simp [ThemeConfig.save, h]
  · intro row h
    rw [save_of_valid self row h]
    exact ⟨rfl, rfl⟩
  · intro row e h he
    rw [save_of_valid self row h, data_valid_of_getElem? _ row e _ he]
    rfl

/-- C1 at a panel whose current row is `breeze`, and at a panel with no current row. -/
theorem save_result_witness :
    (sampleBreezePanel.save.length = 1 ∧
      sampleBreezePanel.save.map Prod.snd = [QVariant.string "breeze"]) ∧
    sampleFreshPanel.save = [] :=
  ⟨⟨((save_result sampleBreezePanel).2.1 0 rfl).1,
    (save_result sampleBreezePanel).2.2 0 sampleBreeze rfl rfl⟩,
   (save_result sampleFreshPanel).1 rfl⟩

/-- C2: `ThemeConfig::findThemeIndex` returns row `i` exactly when row `i` exists, carries
the identifier `id`, and no earlier row carries it (the first match wins); it returns the
invalid index exactly when no row carries `id`, which covers the empty model. The
function is total, so no error is raised. -/
theorem findThemeIndex_first_match (self : ThemeConfig) (id : String) :
    (∀ i, self.findThemeIndex id = QModelIndex.valid i ↔
      ∃ e, self.themesListView.model.rows[i]? = some e ∧ e.id = id ∧
        ∀ j, j < i → ∀ e', self.themesListView.model.rows[j]? = some e' → e'.id ≠ id) ∧
    (self.findThemeIndex id = QModelIndex.invalid ↔
      ∀ e ∈ self.themesListView.model.rows, e.id ≠ id) := by
  obtain ⟨h1, h2⟩ := findThemeIndexLoop_spec self.themesListView.model id
    self.themesListView.model.rows.length 0 (by simp)
  simp only [ThemeConfig.findThemeIndex, ThemesModel.rowCount]
  constructor
  · intro i
    rw [h1 i]
    constructor
    · rintro ⟨-, e, he, hid, hfirst⟩
      exact ⟨e, he, hid, fun j hj => hfirst j (Nat.zero_le _) hj⟩
    · rintro ⟨e, he, hid, hfirst⟩
      exact ⟨Nat.zero_le _, e, he, hid, fun j _ hj => hfirst j hj⟩
  · rw [h2]
    constructor
    · intro h e he
      obtain ⟨j, hj⟩ := List.getElem?_of_mem he
      exact h j (Nat.zero_le _) e hj
    · intro h j _ e' he'
      exact h e' (List.getElem?_mem he')

/-- C3: for every panel state and every existing row, `ThemeConfig::themeSelected`
succeeds and afterwards each of the nine bindings holds the value taken from that row
alone (`previewPath` is the row's path followed by its preview file name), whatever the
bindings held before, and `changed(true)` is the signal emitted last. -/
theorem themeSelected_bindings (self : ThemeConfig) (row : Nat) (e : ThemeEntry)
    (h : self.themesListView.model.rows[row]? = some e) :
    ∃ st, self.themeSelected (QModelIndex.valid row) = some st ∧
      st.declarativeView.rootContext "themeName" = some e.title ∧
      st.declarativeView.rootContext "previewPath" = some (e.path ++ e.preview) ∧
      st.declarativeView.rootContext "authorName" = some e.author ∧
      st.declarativeView.rootContext "description" = some e.description ∧
      st.declarativeView.rootContext "license" = some e.license ∧
      st.declarativeView.rootContext "email" = some e.email ∧
      st.declarativeView.rootContext "website" = some e.website ∧
      st.declarativeView.rootContext "copyright" = some e.copyright ∧
      st.declarativeView.rootContext "version" = some e.version ∧
      st.changed = self.changed ++ [true] := by
  refine ⟨_, by simp only [ThemeConfig.themeSelected, QModelIndex.isValid]; rfl, ?_⟩
  simp only [data_valid_of_getElem? _ row e _ h, QVariant.toString, ThemeEntry.field,
    QDeclarativeView.setContextProperty]
  refine ⟨?_, ?_, ?_, ?_, ?_, ?_, ?_, ?_, ?_, ?_⟩ <;> first | rfl | simp

/-- C3 at `samplePanel`, which shows a website: selecting `sampleBreeze`, whose website
is empty, sets the website binding to the empty string. -/
theorem themeSelected_bindings_witness :
    samplePanel.declarativeView.rootContext "website" = some "http://www.maui-project.org" ∧
    ∃ st, samplePanel.themeSelected (QModelIndex.valid 0) = some st ∧
      st.declarativeView.rootContext "themeName" = some "Breeze" ∧
      st.declarativeView.rootContext "previewPath" =
        some ("/usr/share/sddm/themes/breeze/" ++ "preview.png") ∧
      st.declarativeView.rootContext "authorName" = some "KDE Visual Design Group" ∧
      st.declarativeView.rootContext "description" = some "The Breeze theme" ∧
      st.declarativeView.rootContext "license" = some "GPL" ∧
      st.declarativeView.rootContext "email" = some "plasma-devel@kde.org" ∧
      st.declarativeView.rootContext "website" = some "" ∧
      st.declarativeView.rootContext "copyright" = some "(c) 2014" ∧
      st.declarativeView.rootContext "version" = some "0.1" ∧
      st.changed = [] ++ [true] :=
  ⟨by decide, themeSelected_bindings samplePanel 0 sampleBreeze rfl⟩

/-- C4: when the stored identifier equals no row's identifier, `prepareInitialTheme`
succeeds and leaves the current index, every context property and the emitted signals
as they were; and the constructor then ends with no current index, no context property
set and no signal emitted. -/
theorem prepareInitialTheme_no_match (locate : String → String → String)
    (self : ThemeConfig)
    (h : ∀ e ∈ self.themesListView.model.rows,
      e.id ≠ (self.mConfig.group "General").readEntry "CurrentTheme") :
    (∃ st, self.prepareInitialTheme locate = some st ∧
      st.themesListView.currentIndex = self.themesListView.currentIndex ∧
      st.declarativeView.rootContext = self.declarativeView.rootContext ∧
      st.changed = self.changed) ∧
    (∃ st, ThemeConfig.construct locate self.mConfig self.themesListView.model.rows = some st ∧
      st.themesListView.currentIndex = QModelIndex.invalid ∧
      (∀ name, st.declarativeView.rootContext name = none) ∧
      st.changed = []) := by
  constructor
  · have hf := findThemeIndex_invalid_of_no_match
      { self with declarativeView :=
          self.declarativeView.setSource (locate "data" "sddm-kcm/main.qml") } _ h
    simp only [ThemeConfig.prepareInitialTheme, hf, QModelIndex.isValid]
    exact ⟨_, rfl, rfl, rfl, rfl⟩
  · have hf := findThemeIndex_invalid_of_no_match
      { mConfig := self.mConfig
        themesListView := ⟨⟨self.themesListView.model.rows⟩, QModelIndex.invalid⟩
        declarativeView := QDeclarativeView.setSource ⟨"", fun _ => none⟩
          (locate "data" "sddm-kcm/main.qml")
        changed := [] } _ h
    simp only [ThemeConfig.construct, ThemeConfig.prepareInitialTheme, hf, QModelIndex.isValid]
    exact ⟨_, rfl, rfl, fun _ => rfl, rfl⟩

/-- C4 at a panel whose stored identifier `elarun` is carried by none of its rows. -/
theorem prepareInitialTheme_no_match_witness :
    (∃ st, sampleFreshPanel.prepareInitialTheme sampleLocate = some st ∧
      st.themesListView.currentIndex = QModelIndex.invalid ∧
      st.declarativeView.rootContext = sampleFreshPanel.declarativeView.rootContext ∧
      st.changed = []) ∧
    (∃ st, ThemeConfig.construct sampleLocate sampleFreshPanel.mConfig
        [sampleBreeze, sampleMaui, sampleMauiCopy] = some st ∧
      st.themesListView.currentIndex = QModelIndex.invalid ∧
      (∀ name, st.declarativeView.rootContext name = none) ∧
      st.changed = []) :=
  prepareInitialTheme_no_match sampleLocate sampleFreshPanel (by decide)

/-- C5, as stated, fails: with row 0 current the one key that `save` emits is not the
path `General/CurrentTheme` of the entry read at startup. -/
theorem save_key_counterexample :
    sampleBreezePanel.themesListView.currentIndex.isValid = true ∧
    sampleBreezePanel.save.map Prod.fst ≠ ["General/CurrentTheme"] := by
  decide

/-- C5, amended: for a valid current index the one key that `save` emits is
`sddm.conf/General/CurrentTheme`, the file name `sddm.conf` followed by the group
`General` and the entry `CurrentTheme`; and that group and entry are what
`prepareInitialTheme` reads: it gives the same result under any two configurations
that agree on this entry. -/
theorem save_key_path (self : ThemeConfig) (row : Nat)
    (h : self.themesListView.currentIndex = QModelIndex.valid row) :
    self.save.map Prod.fst = ["sddm.conf" ++ "/" ++ "General" ++ "/" ++ "CurrentTheme"] ∧
    ∀ (locate : String → String → String) (c : KConfig),
      (c.group "General").readEntry "CurrentTheme" =
        (self.mConfig.group "General").readEntry "CurrentTheme" →
      ThemeConfig.prepareInitialTheme locate { self with mConfig := c } =
        (self.prepareInitialTheme locate).map (fun st => { st with mConfig := c }) := by
  constructor
  · rw [save_of_valid self row h]
    show ["sddm.conf/General/CurrentTheme"] = _
    decide
  · intro locate c hc
    simp only [ThemeConfig.prepareInitialTheme, hc, ThemeConfig.findThemeIndex]
    split
    · rfl
    · simp only [ThemeConfig.themeSelected]
      split <;> rfl

/-- C5, amended, at `sampleBreezePanel` and a configuration with one more entry. -/
theorem save_key_path_witness :
    sampleBreezePanel.save.map Prod.fst =
      ["sddm.conf" ++ "/" ++ "General" ++ "/" ++ "CurrentTheme"] ∧
    ThemeConfig.prepareInitialTheme sampleLocate
        { sampleBreezePanel with
          mConfig := ⟨[(("Theme", "Current"), "x"), (("General", "CurrentTheme"), "maui")]⟩ } =
      (sampleBreezePanel.prepareInitialTheme sampleLocate).map (fun st =>
        { st with
          mConfig := ⟨[(("Theme", "Current"), "x"), (("General", "CurrentTheme"), "maui")]⟩ }) :=
  ⟨(save_key_path sampleBreezePanel 0 rfl).1,
   (save_key_path sampleBreezePanel 0 rfl).2 sampleLocate _ (by decide)⟩

/-- C10: when the stored identifier is carried by at least one row, `prepareInitialTheme`
succeeds and a `save` right after it returns a map of exactly one entry whose value is the
stored identifier, also when several rows carry it. -/
theorem prepareInitialTheme_save_roundtrip (locate : String → String → String)
    (self : ThemeConfig)
    (h : ∃ e ∈ self.themesListView.model.rows,
      e.id = (self.mConfig.group "General").readEntry "CurrentTheme") :
    ∃ st, self.prepareInitialTheme locate = some st ∧
      st.save.length = 1 ∧
      st.save.map Prod.snd =
        [QVariant.string ((self.mConfig.group "General").readEntry "CurrentTheme")] := by
  obtain ⟨h1, h2⟩ := findThemeIndexLoop_spec self.themesListView.model
    ((self.mConfig.group "General").readEntry "CurrentTheme")
    self.themesListView.model.rows.length 0 (by simp)
  cases hidx : ThemeConfig.findThemeIndexLoop self.themesListView.model
      ((self.mConfig.group "General").readEntry "CurrentTheme")
      self.themesListView.model.rows.length 0 with
  | invalid =>
    exfalso
    obtain ⟨e, he, hid⟩ := h
    obtain ⟨j, hj⟩ := List.getElem?_of_mem he
    exact (h2.mp hidx) j (Nat.zero_le _) e hj hid
  | valid r =>
    obtain ⟨-, e, he, hid, -⟩ := (h1 r).mp hidx
    obtain ⟨st, hst, -, hview, -⟩ := themeSelected_valid
      { self with
        declarativeView := self.declarativeView.setSource (locate "data" "sddm-kcm/main.qml")
        themesListView := { self.themesListView with currentIndex := QModelIndex.valid r } } r
    refine ⟨st, ?_, ?_⟩
    · simp only [ThemeConfig.prepareInitialTheme, ThemeConfig.findThemeIndex,
        ThemesModel.rowCount, hidx, QModelIndex.isValid]
      exact hst
    · have hsave := save_of_valid st r (by rw [hview])
      rw [hsave, hview]
      simp only [data_valid_of_getElem? _ r e _ he, ThemeEntry.field, hid]
      exact ⟨rfl, rfl⟩

/-- C10 at `samplePanel`, whose stored identifier `maui` is carried by two rows. -/
theorem prepareInitialTheme_save_roundtrip_witness :
    ∃ st, samplePanel.prepareInitialTheme sampleLocate = some st ∧
      st.save.length = 1 ∧
      st.save.map Prod.snd =
        [QVariant.string ((samplePanel.mConfig.group "General").readEntry "CurrentTheme")] :=
  prepareInitialTheme_save_roundtrip sampleLocate samplePanel ⟨sampleMaui, by decide, by decide⟩

/-! ## The renderer: claims -/

/-- C8, as stated, fails: two selected items, one enabled and active and one disabled,
get different text colours under `samplePalette`. -/
theorem paintTextColor_selected_counterexample :
    (State_Selected ||| State_Enabled ||| State_Active) &&& State_Selected ≠ 0 ∧
    State_Selected &&& State_Selected ≠ 0 ∧
    ThemesDelegate.paintTextColor sampleEnv (State_Selected ||| State_Enabled ||| State_Active)
      ≠ ThemesDelegate.paintTextColor sampleEnv State_Selected := by
  decide

/-- C8, amended: the text colour of `paint` is the application palette's colour for the
colour group of the item (disabled when not enabled, inactive when enabled and not
active, active otherwise) and for the role `HighlightedText` when the item is selected,
`Text` when it is not. So two style states that agree on the selected flag, on the
enabled flag and, when enabled, on the active flag get the same colour and the same
laid out document. -/
theorem paintTextColor_cases (self : ThemesDelegate) (env : Env)
    (o₁ o₂ : QStyleOptionViewItem) (title author website : String)
    (hsel : o₁.state &&& State_Selected = 0 ↔ o₂.state &&& State_Selected = 0)
    (hen : o₁.state &&& State_Enabled = 0 ↔ o₂.state &&& State_Enabled = 0)
    (hact : o₁.state &&& State_Enabled ≠ 0 →
      (o₁.state &&& State_Active = 0 ↔ o₂.state &&& State_Active = 0)) :
    ThemesDelegate.paintTextColor env o₁.state =
      (env.applicationPalette.brush
        (if o₁.state &&& State_Enabled = 0 then ColorGroup.Disabled
          else if o₁.state &&& State_Active = 0 then ColorGroup.Inactive
          else ColorGroup.Active)
        (if o₁.state &&& State_Selected ≠ 0 then ColorRole.HighlightedText
          else ColorRole.Text)).color ∧
    ThemesDelegate.paintTextColor env o₁.state = ThemesDelegate.paintTextColor env o₂.state ∧
    self.paintDocument env o₁ title author website =
      self.paintDocument env o₂ title author website := by
  have hcol : ThemesDelegate.paintTextColor env o₁.state =
      ThemesDelegate.paintTextColor env o₂.state := by
    simp only [ThemesDelegate.paintTextColor, ne_eq, hsel, hen]
    by_cases h1 : o₂.state &&& State_Enabled = 0
    · simp only [h1, if_true]
    · have ha := hact (fun h => h1 (hen.mp h))
      simp only [h1, if_false, ha]
  refine ⟨?_, hcol, ?_⟩
  · simp only [ThemesDelegate.paintTextColor]
    by_cases h1 : o₁.state &&& State_Enabled = 0 <;>
      by_cases h5 : o₁.state &&& State_Active = 0 <;>
      by_cases h3 : o₁.state &&& State_Selected = 0 <;>
      simp [h1, h3, h5]
  · simp only [ThemesDelegate.paintDocument, hcol]

/-- C8, amended, at two selected, enabled and active items that differ in another flag. -/
theorem paintTextColor_cases_witness :
    ThemesDelegate.paintTextColor sampleEnv
        (sampleOption (State_Selected ||| State_Enabled ||| State_Active)).state =
      (sampleEnv.applicationPalette.brush
        (if (sampleOption (State_Selected ||| State_Enabled ||| State_Active)).state
            &&& State_Enabled = 0 then ColorGroup.Disabled
          else if (sampleOption (State_Selected ||| State_Enabled ||| State_Active)).state
            &&& State_Active = 0 then ColorGroup.Inactive
          else ColorGroup.Active)
        (if (sampleOption (State_Selected ||| State_Enabled ||| State_Active)).state
            &&& State_Selected ≠ 0 then ColorRole.HighlightedText
          else ColorRole.Text)).color ∧
    ThemesDelegate.paintTextColor sampleEnv
        (sampleOption (State_Selected ||| State_Enabled ||| State_Active)).state =
      ThemesDelegate.paintTextColor sampleEnv
        (sampleOption (State_Selected ||| State_Enabled ||| State_Active ||| 0x2000)).state ∧
    sampleDelegate.paintDocument sampleEnv
        (sampleOption (State_Selected ||| State_Enabled ||| State_Active)) "Maui" "me" "" =
      sampleDelegate.paintDocument sampleEnv
        (sampleOption (State_Selected ||| State_Enabled ||| State_Active ||| 0x2000))
        "Maui" "me" "" :=
  paintTextColor_cases sampleDelegate sampleEnv
    (sampleOption (State_Selected ||| State_Enabled ||| State_Active))
    (sampleOption (State_Selected ||| State_Enabled ||| State_Active ||| 0x2000))
    "Maui" "me" "" (by decide) (by decide) (by decide)

/-- C6, as stated, fails: a title that holds a line-break tag gives a caption of two
lines although author and website are empty. -/
theorem paintCaption_lines_counterexample :
    captionLines (ThemesDelegate.paintCaptionHtml sampleEnv "Old<br />School" "" "") =
      ["<strong>Old", "School</strong>"] ∧
    (captionLines (ThemesDelegate.paintCaptionHtml sampleEnv "Old<br />School" "" "")).length ≠
      1 + (if ("" : String) ≠ "" then 1 else 0) + (if ("" : String) ≠ "" then 1 else 0) := by
  decide

/-- C6, amended: when the title, the website and, for a non-empty author, the translated
author caption hold no line-break tag, the segments of the caption markup of `paint`
between line-break tags are, in order, the bold title, the author caption line when the
author is not empty, and the website line when the website is not empty; their number is
one, plus one for a non-empty author, plus one for a non-empty website. -/
theorem paintCaption_lines (env : Env) (title author website : String)
    (ht : ¬ brTag <:+: title.toList)
    (ha : author ≠ "" → ¬ brTag <:+:
      (env.i18nc "Caption to theme preview, %1 author name" "by %1" author).toList)
    (hw : ¬ brTag <:+: website.toList) :
    captionLines (ThemesDelegate.paintCaptionHtml env title author website) =
      captionLineList env.smallestReadableFontPointSize title author
        (env.i18nc "Caption to theme preview, %1 author name" "by %1" author) website ∧
    (captionLines (ThemesDelegate.paintCaptionHtml env title author website)).length =
      1 + (if author ≠ "" then 1 else 0) + (if website ≠ "" then 1 else 0) := by
  have hT := strong_no_br title ht
  have hW := spanLine_no_br env.smallestReadableFontPointSize website hw
  have key : captionLines (ThemesDelegate.paintCaptionHtml env title author website) =
      captionLineList env.smallestReadableFontPointSize title author
        (env.i18nc "Caption to theme preview, %1 author name" "by %1" author) website := by
    simp only [captionLines, paintCaptionHtml_toList, captionLineList]
    by_cases hae : author = ""
    · by_cases hwe : website = ""
      · simp only [hae, hwe, ne_eq, not_true_eq_false, if_false, List.append_nil,
          splitBrAux_no_br _ hT, List.map]
        rfl
      · simp only [hae, hwe, ne_eq, not_true_eq_false, not_false_eq_true, if_true, if_false,
          List.append_nil, List.nil_append, splitBrAux_append_br _ _ hT,
          splitBrAux_no_br _ hW, List.map, List.cons_append]
        rfl
    · have hA := spanLine_no_br env.smallestReadableFontPointSize _ (ha hae)
      by_cases hwe : website = ""
      · simp only [hae, hwe, ne_eq, not_true_eq_false, not_false_eq_true, if_true, if_false,
          List.append_nil, List.nil_append, splitBrAux_append_br _ _ hT,
          splitBrAux_no_br _ hA, List.map, List.cons_append]
        rfl
      · simp only [hae, hwe, ne_eq, not_false_eq_true, if_true, List.append_assoc,
          List.nil_append, splitBrAux_append_br _ _ hT, splitBrAux_append_br _ _ hA,
          splitBrAux_no_br _ hW, List.map, List.cons_append]
        rfl
  refine ⟨key, ?_⟩
  rw [key]
  by_cases hae : author = "" <;> by_cases hwe : website = "" <;>
    simp [captionLineList, hae, hwe]

/-- C6, amended, at an entry with an author and a website and no translation catalogue. -/
theorem paintCaption_lines_witness :
    captionLines (ThemesDelegate.paintCaptionHtml sampleEnv "Maui" "Pier" "http://maui.org") =
      captionLineList sampleEnv.smallestReadableFontPointSize "Maui" "Pier"
        (sampleEnv.i18nc "Caption to theme preview, %1 author name" "by %1" "Pier")
        "http://maui.org" ∧
    (captionLines
        (ThemesDelegate.paintCaptionHtml sampleEnv "Maui" "Pier" "http://maui.org")).length =
      1 + (if ("Pier" : String) ≠ "" then 1 else 0)
        + (if ("http://maui.org" : String) ≠ "" then 1 else 0) :=
  paintCaption_lines sampleEnv "Maui" "Pier" "http://maui.org"
    (by decide) (fun _ => by decide) (by decide)

/-- C7: for an existing row whose scaled preview pixmap is null, whatever the style
option, `paint` succeeds and hands the painter exactly these commands: the item
background, one fill of the cell rectangle `option.rect` (the thumbnail region lies in
it) with the `Base` brush of the option's palette, and then the caption, drawn below the
thumbnail box at `int` coordinates: the document of text width `m_maxWidth` whose
markup is the caption lines of the row (bold title, author caption line, website line)
joined by line-break tags inside a centred block of the text colour. It draws no image
and no pixmap. -/
theorem paint_null_pixmap (self : ThemesDelegate) (env : Env) (painter : QPainter)
    (option : QStyleOptionViewItem) (model : ThemesModel) (row : Nat) (e : ThemeEntry)
    (he : model.rows[row]? = some e)
    (hnull : ((env.loadPixmap (e.path ++ e.preview)).scaled
      ⟨self.SCREENSHOT_SIZE, self.screenshotHeight⟩).isNull = true) :
    self.paint env painter option model (QModelIndex.valid row) =
      some (painter ++
        [PaintCommand.drawPanelItemViewItem ⟨option, true⟩,
         PaintCommand.fillRect option.rect
           (option.palette.brushes option.palette.currentColorGroup ColorRole.Base),
         PaintCommand.save,
         PaintCommand.translate (wrapInt32 (option.rect.left + self.MARGIN))
           (wrapInt32 (wrapInt32 (option.rect.top + self.m_maxHeight)
             + wrapInt32 (self.MARGIN * 2))),
         PaintCommand.drawContents
           ⟨"<div style=\"color: "
              ++ (env.applicationPalette.brushes
                  (if option.state &&& State_Enabled = 0 then ColorGroup.Disabled
                    else if option.state &&& State_Active = 0 then ColorGroup.Inactive
                    else ColorGroup.Active)
                  (if option.state &&& State_Selected ≠ 0 then ColorRole.HighlightedText
                    else ColorRole.Text)).color.name
              ++ "\" align=\"center\">"
              ++ String.intercalate "<br />"
                (captionLineList env.smallestReadableFontPointSize e.title e.author
                  (env.i18nc "Caption to theme preview, %1 author name" "by %1" e.author)
                  e.website)
              ++ "</div>",
            self.m_maxWidth⟩
           ⟨0, 0, wrapInt32 (option.rect.width - 0),
             wrapInt32 (option.rect.height
               - wrapInt32 (self.m_maxHeight + wrapInt32 (self.MARGIN * 2)))⟩,
         PaintCommand.restore]) := by
  have hcolor : ThemesDelegate.paintTextColor env option.state =
      (env.applicationPalette.brushes
        (if option.state &&& State_Enabled = 0 then ColorGroup.Disabled
          else if option.state &&& State_Active = 0 then ColorGroup.Inactive
          else ColorGroup.Active)
        (if option.state &&& State_Selected ≠ 0 then ColorRole.HighlightedText
          else ColorRole.Text)).color := by
    simp only [ThemesDelegate.paintTextColor, QPalette.brush]
    by_cases h1 : option.state &&& State_Enabled = 0 <;>
      by_cases h5 : option.state &&& State_Active = 0 <;>
      by_cases h3 : option.state &&& State_Selected = 0 <;>
      simp [h1, h3, h5]
  simp only [ThemesDelegate.paint, QModelIndex.isValid, data_valid_of_getElem? _ row e _ he,
    QVariant.toString, ThemeEntry.field, ThemesDelegate.paintThumbnail, hnull,
    ThemesDelegate.paintDocument, paintCaptionHtml_eq_intercalate, hcolor,
    QPalette.currentBrush, addInt32, subInt32, mulInt32]
  simp [QRect.ofPointSize, QRect.size]

/-- C7 at `sampleBreeze`, whose preview file `sampleEnv` cannot decode, in an enabled,
inactive, unselected cell, and at `sampleMaui` in a selected cell at the far end of the
`int` range, where the caption's coordinates wrap. -/
theorem paint_null_pixmap_witness :
    sampleDelegate.paint sampleEnv [] (sampleOption State_Enabled)
        ⟨[sampleBreeze, sampleMaui]⟩ (QModelIndex.valid 0) =
      some
        [PaintCommand.drawPanelItemViewItem ⟨sampleOption State_Enabled, true⟩,
         PaintCommand.fillRect ⟨0, 0, 149, 160⟩ ⟨QColor.white⟩,
         PaintCommand.save,
         PaintCommand.translate 6 101,
         PaintCommand.drawContents
           ⟨"<div style=\"color: #000000\" align=\"center\"><strong>Breeze</strong><br /><span style=\"font-size: 8pt;\">by KDE Visual Design Group</span></div>",
            137⟩
           ⟨0, 0, 149, 59⟩,
         PaintCommand.restore] ∧
    sampleDelegate.paint sampleEnv [PaintCommand.save] sampleEdgeOption
        ⟨[sampleBreeze, sampleMaui]⟩ (QModelIndex.valid 1) =
      some
        [PaintCommand.save,
         PaintCommand.drawPanelItemViewItem ⟨sampleEdgeOption, true⟩,
         PaintCommand.fillRect ⟨2147483647, 2147483547, 1, 100⟩ ⟨QColor.white⟩,
         PaintCommand.save,
         PaintCommand.translate (-2147483643) (-2147483648),
         PaintCommand.drawContents
           ⟨"<div style=\"color: #ffffff\" align=\"center\"><strong>Maui</strong><br /><span style=\"font-size: 8pt;\">by Pier Luigi</span><br /><span style=\"font-size: 8pt;\">http://www.maui-project.org</span></div>",
            137⟩
           ⟨0, 0, 1, -1⟩,
         PaintCommand.restore] :=
  ⟨paint_null_pixmap sampleDelegate sampleEnv [] (sampleOption State_Enabled)
    ⟨[sampleBreeze, sampleMaui]⟩ 0 sampleBreeze rfl rfl,
   paint_null_pixmap sampleDelegate sampleEnv [PaintCommand.save] sampleEdgeOption
    ⟨[sampleBreeze, sampleMaui]⟩ 1 sampleMaui rfl rfl⟩

/-- C9, as stated, fails: for a theme with only a title the markup that `sizeHint` lays
out is not the markup that `paint` lays out. -/
theorem sizeHint_markup_counterexample :
    (sampleDelegate.sizeHintDocument sampleEnv "Maui" "" "").html = "<strong>Maui</strong><br />" ∧
    (sampleDelegate.paintDocument sampleEnv (sampleOption State_Enabled) "Maui" "" "").html =
      "<div style=\"color: #000000\" align=\"center\"><strong>Maui</strong></div>" ∧
    (sampleDelegate.sizeHintDocument sampleEnv "Maui" "" "").html ≠
      (sampleDelegate.paintDocument sampleEnv (sampleOption State_Enabled) "Maui" "" "").html := by
  decide

/-- C9, amended: `sizeHint` and `paint` lay out, at the same text width `m_maxWidth`,
the same sequence of caption lines up to the text of the author caption: the bold title,
an author line exactly when the author is not empty, and the same website line exactly
when the website is not empty. `paint` joins the lines (its author caption is the
translated one) by line-break tags inside a coloured, centred block, while `sizeHint`
ends every line with a line-break tag and has no block around them. The result of
`sizeHint` does not depend on the style option. -/
theorem sizeHint_markup (self : ThemesDelegate) (env : Env) (option : QStyleOptionViewItem)
    (title author website : String) :
    (self.paintDocument env option title author website).html =
      "<div style=\"color: " ++ (ThemesDelegate.paintTextColor env option.state).name
        ++ "\" align=\"center\">"
        ++ String.intercalate "<br />"
          (captionLineList env.smallestReadableFontPointSize title author
            (env.i18nc "Caption to theme preview, %1 author name" "by %1" author) website)
        ++ "</div>" ∧
    (∃ hintCaption : String,
      (self.sizeHintDocument env title author website).html =
        String.join
          ((captionLineList env.smallestReadableFontPointSize title author hintCaption
            website).map (fun line => line ++ "<br />"))) ∧
    (self.paintDocument env option title author website).textWidth = self.m_maxWidth ∧
    (self.sizeHintDocument env title author website).textWidth = self.m_maxWidth ∧
    ∀ (other : QStyleOptionViewItem) (model : ThemesModel) (index : QModelIndex),
      self.sizeHint env option model index = self.sizeHint env other model index := by
  refine ⟨?_, ⟨"by " ++ author, ?_⟩, rfl, rfl, fun _ _ _ => rfl⟩
  · simp only [ThemesDelegate.paintDocument, paintCaptionHtml_eq_intercalate]
  · have hline : ∀ (text : String),
        "<span style=\"font-size: " ++ toString env.smallestReadableFontPointSize
          ++ "pt;\">" ++ text ++ "</span><br />" =
        spanLine env.smallestReadableFontPointSize text ++ "<br />" := by
      intro text
      apply String.ext
      simp only [spanLine, String.data_append, List.append_assoc]
      rfl
    have hby : ∀ (text : String),
        "<span style=\"font-size: " ++ toString env.smallestReadableFontPointSize
          ++ "pt;\">by " ++ text ++ "</span><br />" =
        spanLine env.smallestReadableFontPointSize ("by " ++ text) ++ "<br />" := by
      intro text
      apply String.ext
      simp only [spanLine, String.data_append, List.append_assoc]
      rfl
    have hstrong : "<strong>" ++ title ++ "</strong><br />" =
        "<strong>" ++ title ++ "</strong>" ++ "<br />" := by
      apply String.ext
      simp only [String.data_append, List.append_assoc]
      rfl
    simp only [ThemesDelegate.sizeHintDocument, captionLineList, hby, hline, hstrong]
    by_cases ha : author = "" <;> by_cases hw : website = "" <;>
      simp only [ha, hw, ne_eq, not_true_eq_false, not_false_eq_true, if_true, if_false,
        List.append_nil, List.cons_append, List.nil_append, List.map, String.join,
        List.foldl, String.append_assoc, String.empty_append]

end SddmKcm
